import Mathlib

/-!
Verification development for the obsidian-agent-client front-end layer.

The definitions below are a shallow embedding of the TypeScript source:

* `ChatInput` (src/unnamed/part_000): image-attachment pipeline
  (`addImage`, `processImageFiles`, `handlePaste`, `handleDrop`),
  send/stop handling (`handleSendOrStop`), the button enablement rule
  (`isButtonDisabled`), dropdown keyboard handling
  (`handleDropdownKeyPress`), and the agent-switch effect.
* `FloatingButton` (src/src/components/chat/FloatingButton.tsx and the
  copy in src/unnamed/part_000): display-label disambiguation
  (`instanceLabels`).
* `parseChatFontSize` (src/unnamed/part_002).

Stateful React code is modelled by explicit state passing; user-visible
notices and host callbacks are modelled as emitted events; JavaScript
numbers are modelled by exact rationals tagged with the non-finite cases.
-/

namespace AgentClient

/-! ## Image constants (ChatInput, src/unnamed/part_000 lines 28-45) -/

def MAX_IMAGE_SIZE_MB : Nat := 5

def MAX_IMAGE_SIZE_BYTES : Nat := MAX_IMAGE_SIZE_MB * 1024 * 1024

def MAX_IMAGE_COUNT : Nat := 10

def SUPPORTED_IMAGE_TYPES : List String :=
  ["image/png", "image/jpeg", "image/gif", "image/webp"]

/-! ## Data model -/

/-- Model of a browser `File` offered by a paste or drop event: its
`size` in bytes, MIME `type`, raw `content`, and whether the
`FileReader` conversion of `fileToBase64` succeeds (`decodeOk`), which
in the browser is an external failure mode caught by the
`try`/`catch` in `processImageFiles`. -/
structure ImageFile where
  size : Nat
  type : String
  content : String
  decodeOk : Bool
deriving DecidableEq, Repr

/-- Model of `AttachedImage` (ImagePreviewStrip): `id`, base64 `data`
and `mimeType` as in the TypeScript record.  The model adds `srcSize`,
the pre-encoding `file.size` of the source file, which the code checks
against `MAX_IMAGE_SIZE_BYTES` before conversion but does not store;
the claims quantify over it. -/
structure AttachedImage where
  id : String
  data : String
  mimeType : String
  srcSize : Nat
deriving DecidableEq, Repr

/-- Model of the browser base64 conversion performed by `fileToBase64`
via `FileReader.readAsDataURL`.  The encoding itself is host code
outside this repository; the model carries the content through
unchanged, which is faithful for every claim (none depends on the
encoded bytes). -/
def fileToBase64 (f : ImageFile) : String := f.content

/-- User-visible notices emitted through the host `Notice` toast. -/
inductive NoticeEvent where
  /-- "Maximum 10 images allowed" -/
  | maxCount
  /-- "Image too large (max 5MB)" -/
  | tooLarge
  /-- "Failed to attach image" -/
  | failedAttach
  /-- "This agent does not support image attachments" -/
  | notSupported
deriving DecidableEq, Repr

/-! ## addImage / processImageFiles -/

/-- `addImage` (lines 188-197): append unless the count cap is already
reached. -/
def addImage (attachedImages : List AttachedImage) (image : AttachedImage) :
    List AttachedImage :=
  if attachedImages.length ≥ MAX_IMAGE_COUNT then attachedImages
  else attachedImages ++ [image]

/-- Loop body of `processImageFiles` (lines 232-269).  `baseLen` is
`attachedImages.length` captured at entry, `addedCount` the in-batch
counter, `imgs` the running attached list threaded through `addImage`,
`nextId` a fresh-id counter standing in for `crypto.randomUUID()`.
Returns the final list and the notices emitted, in order. -/
def processImageFilesGo (baseLen : Nat) :
    List ImageFile → List AttachedImage → Nat → Nat →
    List AttachedImage × List NoticeEvent
  | [], imgs, _, _ => (imgs, [])
  | f :: rest, imgs, addedCount, nextId =>
    if baseLen + addedCount ≥ MAX_IMAGE_COUNT then
      (imgs, [NoticeEvent.maxCount])
    else if f.size > MAX_IMAGE_SIZE_BYTES then
      let r := processImageFilesGo baseLen rest imgs addedCount nextId
      (r.1, NoticeEvent.tooLarge :: r.2)
    else if f.decodeOk then
      let img : AttachedImage :=
        ⟨toString nextId, fileToBase64 f, f.type, f.size⟩
      processImageFilesGo baseLen rest (addImage imgs img) (addedCount + 1)
        (nextId + 1)
    else
      let r := processImageFilesGo baseLen rest imgs addedCount nextId
      (r.1, NoticeEvent.failedAttach :: r.2)

/-- `processImageFiles` (lines 232-269): process a batch of files
against the attached list captured at entry. -/
def processImageFiles (attachedImages : List AttachedImage)
    (files : List ImageFile) : List AttachedImage × List NoticeEvent :=
  processImageFilesGo attachedImages.length files attachedImages 0 0

/-! ## handlePaste / handleDrop -/

/-- Model of a `DataTransferItem` on the clipboard: its MIME `type` and
the file returned by `getAsFile()` (`none` when that call yields
`null`). -/
structure ClipItem where
  type : String
  file : Option ImageFile
deriving DecidableEq, Repr

/-- Outcome of a paste or drop event: the resulting attached list, the
notices emitted, and whether `e.preventDefault()` was called. -/
structure IngestResult where
  imgs : List AttachedImage
  notices : List NoticeEvent
  prevented : Bool
deriving DecidableEq, Repr

/-- Shared tail of `handlePaste` (lines 292-304) and `handleDrop`
(lines 358-370), applied to the already-filtered image files: an empty
list leaves the event to default handling; otherwise the default is
prevented and either a single unsupported-notice is emitted (no image
support) or the batch is processed. -/
def ingestFiltered (supportsImages : Bool) (attachedImages : List AttachedImage)
    (imageFiles : List ImageFile) : IngestResult :=
  if imageFiles.isEmpty then ⟨attachedImages, [], false⟩
  else if !supportsImages then
    ⟨attachedImages, [NoticeEvent.notSupported], true⟩
  else
    ⟨(processImageFiles attachedImages imageFiles).1,
      (processImageFiles attachedImages imageFiles).2, true⟩

/-- `handlePaste` (lines 274-306): filter clipboard items to the
whitelisted MIME types, keep those whose `getAsFile()` yields a file,
then ingest. -/
def handlePaste (supportsImages : Bool) (attachedImages : List AttachedImage)
    (items : List ClipItem) : IngestResult :=
  ingestFiltered supportsImages attachedImages
    ((items.filter (fun it => SUPPORTED_IMAGE_TYPES.contains it.type)).filterMap
      (fun it => it.file))

/-- `handleDrop` (lines 345-372): filter `e.dataTransfer.files` to the
whitelisted MIME types, then ingest. -/
def handleDrop (supportsImages : Bool) (attachedImages : List AttachedImage)
    (files : List ImageFile) : IngestResult :=
  ingestFiltered supportsImages attachedImages
    (files.filter (fun f => SUPPORTED_IMAGE_TYPES.contains f.type))

/-! ## Attachment invariant (claim C1) -/

/-- An image-attachment operation: a paste batch or a drop batch, with
the image-support flag of the hosting surface at that moment. -/
inductive ImageEvent where
  | paste (supportsImages : Bool) (items : List ClipItem)
  | drop (supportsImages : Bool) (files : List ImageFile)
deriving DecidableEq, Repr

/-- State reached after one image-attachment operation. -/
def applyImageEvent (imgs : List AttachedImage) : ImageEvent → List AttachedImage
  | ImageEvent.paste s items => (handlePaste s imgs items).imgs
  | ImageEvent.drop s files => (handleDrop s imgs files).imgs

/-- The stored-attachment invariant: at most `MAX_IMAGE_COUNT` images,
each from a source file of size at most `MAX_IMAGE_SIZE_BYTES`. -/
def ImageInv (imgs : List AttachedImage) : Prop :=
  imgs.length ≤ MAX_IMAGE_COUNT ∧
    ∀ img ∈ imgs, img.srcSize ≤ MAX_IMAGE_SIZE_BYTES

lemma addImage_inv {imgs : List AttachedImage} {img : AttachedImage}
    (h : ImageInv imgs) (hs : img.srcSize ≤ MAX_IMAGE_SIZE_BYTES) :
    ImageInv (addImage imgs img) := by
  obtain ⟨hlen, hall⟩ := h
  unfold addImage
  by_cases hc : imgs.length ≥ MAX_IMAGE_COUNT
  · simp [hc]; exact ⟨hlen, hall⟩
  · simp [hc]
    constructor
    · have : imgs.length < MAX_IMAGE_COUNT := Nat.lt_of_not_le hc
      simpa [List.length_append] using this
    · intro x hx
      rcases List.mem_append.mp hx with hx1 | hx2
      · exact hall x hx1
      · simp at hx2; subst hx2; exact hs

lemma processImageFilesGo_inv (baseLen : Nat) (files : List ImageFile) :
    ∀ imgs addedCount nextId, ImageInv imgs →
      ImageInv (processImageFilesGo baseLen files imgs addedCount nextId).1 := by
  induction files with
  | nil => intro imgs a n h; simpa [processImageFilesGo] using h
  | cons f rest ih =>
    intro imgs a n h
    unfold processImageFilesGo
    by_cases h1 : baseLen + a ≥ MAX_IMAGE_COUNT
    · simpa [h1] using h
    · by_cases h2 : f.size > MAX_IMAGE_SIZE_BYTES
      · simpa [h1, h2] using ih imgs a n h
      · by_cases h3 : f.decodeOk
        · have hs : f.size ≤ MAX_IMAGE_SIZE_BYTES := Nat.le_of_not_lt h2
          simpa [h1, h2, h3] using
            ih (addImage imgs ⟨toString n, fileToBase64 f, f.type, f.size⟩)
              (a + 1) (n + 1) (addImage_inv h hs)
        · simpa [h1, h2, h3] using ih imgs a n h

lemma processImageFiles_inv {imgs : List AttachedImage}
    (files : List ImageFile) (h : ImageInv imgs) :
    ImageInv (processImageFiles imgs files).1 :=
  processImageFilesGo_inv imgs.length files imgs 0 0 h

lemma ingestFiltered_inv {imgs : List AttachedImage} (s : Bool)
    (fs : List ImageFile) (h : ImageInv imgs) :
    ImageInv (ingestFiltered s imgs fs).imgs := by
  unfold ingestFiltered
  by_cases he : fs.isEmpty
  · rw [if_pos he]; exact h
  · rw [if_neg he]
    cases s with
    | false => simp only [Bool.not_false, if_true]; exact h
    | true =>
      rw [if_neg (by simp)]
      exact processImageFiles_inv fs h

lemma applyImageEvent_inv {imgs : List AttachedImage} (e : ImageEvent)
    (h : ImageInv imgs) : ImageInv (applyImageEvent imgs e) := by
  cases e with
  | paste s items => exact ingestFiltered_inv s _ h
  | drop s files => exact ingestFiltered_inv s _ h

lemma foldl_imageEvents_inv (evs : List ImageEvent) :
    ∀ imgs, ImageInv imgs → ImageInv (evs.foldl applyImageEvent imgs) := by
  induction evs with
  | nil => intro imgs h; simpa using h
  | cons e rest ih =>
    intro imgs h
    simpa [List.foldl_cons] using ih (applyImageEvent imgs e)
      (applyImageEvent_inv e h)

/-- C1: for any sequence of image-attachment operations (paste or drop
batches processed by processImageFiles/addImage) starting from the
empty list, the stored attached-image list never holds more than 10
images, and for every stored image the pre-encoding file size is at most
5 MiB. -/
theorem c1_attachment_invariant (evs : List ImageEvent) :
    ImageInv (evs.foldl applyImageEvent []) :=
  foldl_imageEvents_inv evs [] (by constructor <;> simp [MAX_IMAGE_COUNT])

/-! ## Send / stop handling (ChatInput lines 510-629) -/

/-- Model of JavaScript `String.prototype.trim`, written structurally
over the character list so it evaluates by kernel reduction (the
built-in `String.trim` recurses by well-founded measure and does not). -/
def jsTrim (s : String) : String :=
  ⟨((s.data.dropWhile Char.isWhitespace).reverse.dropWhile
      Char.isWhitespace).reverse⟩

/-- Model of `ImagePromptContent` as built in `handleSendOrStop`: the
`type: "image"` tag is constant and omitted. -/
structure ImagePromptContent where
  data : String
  mimeType : String
deriving DecidableEq, Repr

/-- Conversion applied to each attached image in `handleSendOrStop`
(lines 524-530). -/
def toImagePromptContent (img : AttachedImage) : ImagePromptContent :=
  ⟨img.data, img.mimeType⟩

/-- One observable step of `handleSendOrStop`, in program order: state
setters first, then the asynchronous host callbacks. -/
inductive SendStep where
  | callStop
  | setInput (v : String)
  | setImages (imgs : List AttachedImage)
  | setHint (h : Option String)
  | setCommand (c : String)
  | callSend (content : String) (images : Option (List ImagePromptContent))
deriving DecidableEq, Repr

/-- `handleSendOrStop` (lines 513-541) as the ordered list of steps it
performs: stop when sending; nothing when the trimmed text is empty and
no image is attached; otherwise clear text, images and hint state, then
invoke `onSendMessage` with the saved trimmed text and images
(`undefined`, modelled as `none`, when there are no images). -/
def handleSendOrStop (isSending : Bool) (inputValue : String)
    (attachedImages : List AttachedImage) : List SendStep :=
  if isSending then [SendStep.callStop]
  else if jsTrim inputValue == "" && attachedImages.length == 0 then []
  else
    [SendStep.setInput "", SendStep.setImages [], SendStep.setHint none,
      SendStep.setCommand "",
      SendStep.callSend (jsTrim inputValue)
        (if (attachedImages.map toImagePromptContent).length > 0 then
          some (attachedImages.map toImagePromptContent)
        else none)]

/-- `isButtonDisabled` (lines 624-629). -/
def isButtonDisabled (isSending isSessionReady isRestoringSession : Bool)
    (inputValue : String) (attachedImages : List AttachedImage) : Bool :=
  !isSending &&
    ((jsTrim inputValue == "" && attachedImages.length == 0) ||
      !isSessionReady || isRestoringSession)

/-- C2: when not sending, the submit control is enabled exactly when
(the trimmed input is non-empty or an image is attached) and the
session is ready and no restoration is in progress; and with empty
trimmed text and no images, `handleSendOrStop` performs no step at all,
in particular no send. -/
theorem c2_submit_enablement (isSessionReady isRestoringSession : Bool)
    (inputValue : String) (attachedImages : List AttachedImage) :
    (isButtonDisabled false isSessionReady isRestoringSession inputValue
        attachedImages = false ↔
      ((jsTrim inputValue ≠ "" ∨ attachedImages.length > 0) ∧
        isSessionReady = true ∧ isRestoringSession = false)) ∧
    (jsTrim inputValue = "" → attachedImages = [] →
      handleSendOrStop false inputValue attachedImages = []) := by
  constructor
  · unfold isButtonDisabled
    cases isSessionReady <;> cases isRestoringSession <;>
      by_cases ht : jsTrim inputValue = "" <;>
        by_cases hi : attachedImages.length = 0 <;>
          simp [ht, hi, Nat.pos_iff_ne_zero]
  · intro ht hi
    unfold handleSendOrStop
    simp [ht, hi]

/-- Witness for C2 at a concrete input. -/
theorem c2_submit_enablement_witness :
    handleSendOrStop false "" ([] : List AttachedImage) = [] :=
  (c2_submit_enablement true false "" []).2 (by decide) rfl

/-- C3: on a successful submit (not sending, and non-empty trimmed text
or at least one image), `handleSendOrStop` performs exactly the steps
that set the text to the empty string and the image list to empty, then
calls `onSendMessage` with the pre-clear trimmed text and pre-clear
images; in the step order every `callSend` is strictly preceded by both
clears. -/
theorem c3_clear_before_send (inputValue : String)
    (attachedImages : List AttachedImage)
    (h : ¬(jsTrim inputValue = "" ∧ attachedImages = [])) :
    handleSendOrStop false inputValue attachedImages =
      [SendStep.setInput "", SendStep.setImages [], SendStep.setHint none,
        SendStep.setCommand "",
        SendStep.callSend (jsTrim inputValue)
          (if attachedImages.length > 0 then
            some (attachedImages.map toImagePromptContent)
          else none)] ∧
    ∀ k c im,
      (handleSendOrStop false inputValue attachedImages).get? k =
        some (SendStep.callSend c im) →
      c = jsTrim inputValue ∧
      im = (if attachedImages.length > 0 then
              some (attachedImages.map toImagePromptContent)
            else none) ∧
      ∃ i j, i < k ∧ j < k ∧
        (handleSendOrStop false inputValue attachedImages).get? i =
          some (SendStep.setInput "") ∧
        (handleSendOrStop false inputValue attachedImages).get? j =
          some (SendStep.setImages []) := by
  have hg : (jsTrim inputValue == "" && attachedImages.length == 0) = false := by
    rcases Bool.eq_false_or_eq_true
        (jsTrim inputValue == "" && attachedImages.length == 0) with htr | hf
    · exfalso
      apply h
      have h1 := (Bool.and_eq_true _ _).mp htr
      exact ⟨eq_of_beq h1.1, List.length_eq_zero.mp (eq_of_beq h1.2)⟩
    · exact hf
  have heq : handleSendOrStop false inputValue attachedImages =
      [SendStep.setInput "", SendStep.setImages [], SendStep.setHint none,
        SendStep.setCommand "",
        SendStep.callSend (jsTrim inputValue)
          (if attachedImages.length > 0 then
            some (attachedImages.map toImagePromptContent)
          else none)] := by
    unfold handleSendOrStop
    simp [hg]
  refine ⟨heq, ?_⟩
  intro k c im hk
  rw [heq] at hk
  match k, hk with
  | 4, hk =>
    simp at hk
    exact ⟨hk.1.symm, hk.2.symm, 0, 1, by omega, by omega,
      by rw [heq]; rfl, by rw [heq]; rfl⟩

/-- Witness for C3 at a concrete input. -/
theorem c3_clear_before_send_witness :
    handleSendOrStop false "hello" ([] : List AttachedImage) =
      [SendStep.setInput "", SendStep.setImages [], SendStep.setHint none,
        SendStep.setCommand "",
        SendStep.callSend (jsTrim "hello")
          (if ([] : List AttachedImage).length > 0 then
            some (([] : List AttachedImage).map toImagePromptContent)
          else none)] :=
  (c3_clear_before_send "hello" [] (by decide)).1

/-! ## Rejection behaviour of the ingestion pipeline (claims C4, C5) -/

lemma ingestFiltered_unsupported (imgs : List AttachedImage)
    {fs : List ImageFile} (h : fs ≠ []) :
    ingestFiltered false imgs fs =
      ⟨imgs, [NoticeEvent.notSupported], true⟩ := by
  cases fs with
  | nil => exact absurd rfl h
  | cons f rest => rfl

/-- A 2 MiB PNG file, within the byte cap. -/
def png2MiB : ImageFile := ⟨2 * 1024 * 1024, "image/png", "PNGDATA", true⟩

/-- A 7 MiB JPEG file, above the byte cap. -/
def jpeg7MiB : ImageFile := ⟨7 * 1024 * 1024, "image/jpeg", "JPEGDATA", true⟩

/-- C4: when the surface does not support images, a paste carrying at
least one whitelisted clipboard image file and a drop carrying at least
one whitelisted file each attach nothing, emit exactly the single
"not supported" notice, and prevent the default handling of the event. -/
theorem c4_unsupported_single_notice
    (imgs : List AttachedImage) (items : List ClipItem)
    (files : List ImageFile)
    (hp : ∃ it ∈ items, it.type ∈ SUPPORTED_IMAGE_TYPES ∧ it.file ≠ none)
    (hd : ∃ f ∈ files, f.type ∈ SUPPORTED_IMAGE_TYPES) :
    handlePaste false imgs items =
      ⟨imgs, [NoticeEvent.notSupported], true⟩ ∧
    handleDrop false imgs files =
      ⟨imgs, [NoticeEvent.notSupported], true⟩ := by
  constructor
  · obtain ⟨it, hmem, hty, hfile⟩ := hp
    cases hfo : it.file with
    | none => exact absurd hfo hfile
    | some f =>
      apply ingestFiltered_unsupported
      apply List.ne_nil_of_mem (a := f)
      exact List.mem_filterMap.mpr
        ⟨it, List.mem_filter.mpr ⟨hmem, by simp [hty]⟩, hfo⟩
  · obtain ⟨f, hmem, hty⟩ := hd
    apply ingestFiltered_unsupported
    apply List.ne_nil_of_mem (a := f)
    exact List.mem_filter.mpr ⟨hmem, by simp [hty]⟩

/-- Witness for C4 at a concrete input. -/
theorem c4_unsupported_single_notice_witness :
    handlePaste false [] [ClipItem.mk "image/png" (some png2MiB)] =
      ⟨[], [NoticeEvent.notSupported], true⟩ ∧
    handleDrop false [] [png2MiB] =
      ⟨[], [NoticeEvent.notSupported], true⟩ :=
  c4_unsupported_single_notice [] [ClipItem.mk "image/png" (some png2MiB)]
    [png2MiB] (by decide) (by decide)

/-- C5: inside one batch, a file over the byte cap is skipped with
exactly one size-limit notice while the rest of the batch continues
(first conjunct, for any loop state that has not hit the count cap);
and the concrete paste of a 2 MiB PNG and a 7 MiB JPEG with image
support enabled attaches exactly the PNG and emits one size-limit
notice. -/
theorem c5_oversize_file_skipped
    (baseLen addedCount nextId : Nat) (f : ImageFile)
    (rest : List ImageFile) (imgs : List AttachedImage)
    (hcap : baseLen + addedCount < MAX_IMAGE_COUNT)
    (hbig : f.size > MAX_IMAGE_SIZE_BYTES) :
    processImageFilesGo baseLen (f :: rest) imgs addedCount nextId =
      ((processImageFilesGo baseLen rest imgs addedCount nextId).1,
        NoticeEvent.tooLarge ::
          (processImageFilesGo baseLen rest imgs addedCount nextId).2) ∧
    handlePaste true []
        [ClipItem.mk "image/png" (some png2MiB),
          ClipItem.mk "image/jpeg" (some jpeg7MiB)] =
      ⟨[AttachedImage.mk "0" "PNGDATA" "image/png" (2 * 1024 * 1024)],
        [NoticeEvent.tooLarge], true⟩ := by
  constructor
  · have h1 : ¬(baseLen + addedCount ≥ MAX_IMAGE_COUNT) := Nat.not_le.mpr hcap
    simp [processImageFilesGo, h1, hbig]
  · decide

/-- Witness for C5 at a concrete input. -/
theorem c5_oversize_file_skipped_witness :
    processImageFilesGo 0 [jpeg7MiB] [] 0 0 =
      ((processImageFilesGo 0 [] [] 0 0).1,
        NoticeEvent.tooLarge :: (processImageFilesGo 0 [] [] 0 0).2) :=
  (c5_oversize_file_skipped 0 0 0 jpeg7MiB [] [] (by decide) (by decide)).1

/-! ## Agent-switch effect (ChatInput lines 179-182, claim C8) -/

/-- The broadcastable draft owned by the hosting view: text plus
attached images. -/
structure ChatDraftState where
  inputValue : String
  attachedImages : List AttachedImage
deriving DecidableEq, Repr

/-- Effect run when `agentId` changes (lines 179-182): the component
calls `onAttachedImagesChange([])` and touches nothing else. -/
def agentSwitchEffect (s : ChatDraftState) : ChatDraftState :=
  { s with attachedImages := [] }

/-- C8: whenever the active agent identifier changes, the attached
images are reset to empty while the input text is left unchanged. -/
theorem c8_agent_switch_clears_images (s : ChatDraftState) :
    (agentSwitchEffect s).attachedImages = [] ∧
      (agentSwitchEffect s).inputValue = s.inputValue :=
  ⟨rfl, rfl⟩

/-! ## Dropdown keyboard handling (ChatInput lines 395-439, 552-622) -/

/-- Model of `SlashCommand` (domain/models/chat-session). -/
structure SlashCommand where
  name : String
  hint : Option String
deriving DecidableEq, Repr

/-- Model of `NoteMetadata` (vault-access port), reduced to the note
name; no handled claim depends on the other fields. -/
structure NoteMetadata where
  name : String
deriving DecidableEq, Repr

/-- The observable state of one suggestion hook as consumed by
`ChatInput`: `isOpen`, `suggestions`, `selectedIndex`. -/
structure DropdownState (α : Type) where
  isOpen : Bool
  suggestions : List α
  selectedIndex : Nat
deriving DecidableEq, Repr

inductive DropdownKind where
  | slash
  | mention
deriving DecidableEq, Repr

inductive NavDir where
  | down
  | up
deriving DecidableEq, Repr

/-- One observable action of `handleDropdownKeyPress`, in program
order: `preventDefault` on the event, a `navigate` call on a hook, a
selection (which goes through `handleSelectSlashCommand` or
`selectMention`), or a `close` call on a hook. -/
inductive KeyAct where
  | preventDefault
  | navigate (which : DropdownKind) (dir : NavDir)
  | selectSlash (c : SlashCommand)
  | selectMention (m : NoteMetadata)
  | closeDropdown (which : DropdownKind)
deriving DecidableEq, Repr

/-- `handleDropdownKeyPress` (lines 555-622): returns whether the event
was handled, together with the ordered actions performed.  The slash
dropdown is consulted first in every branch, exactly as in the source. -/
def handleDropdownKeyPress (slash : DropdownState SlashCommand)
    (mention : DropdownState NoteMetadata) (key : String)
    (isComposing : Bool) : Bool × List KeyAct :=
  let isSlashCommandActive := slash.isOpen
  let isMentionActive := mention.isOpen
  if !isSlashCommandActive && !isMentionActive then (false, [])
  else if key = "ArrowDown" then
    (true,
      if isSlashCommandActive then
        [KeyAct.preventDefault, KeyAct.navigate DropdownKind.slash NavDir.down]
      else
        [KeyAct.preventDefault,
          KeyAct.navigate DropdownKind.mention NavDir.down])
  else if key = "ArrowUp" then
    (true,
      if isSlashCommandActive then
        [KeyAct.preventDefault, KeyAct.navigate DropdownKind.slash NavDir.up]
      else
        [KeyAct.preventDefault, KeyAct.navigate DropdownKind.mention NavDir.up])
  else if key = "Enter" ∨ key = "Tab" then
    if key = "Enter" ∧ isComposing = true then (false, [])
    else if isSlashCommandActive then
      match slash.suggestions.get? slash.selectedIndex with
      | some selectedCommand =>
        (true, [KeyAct.preventDefault, KeyAct.selectSlash selectedCommand])
      | none => (true, [KeyAct.preventDefault])
    else
      match mention.suggestions.get? mention.selectedIndex with
      | some selectedSuggestion =>
        (true, [KeyAct.preventDefault, KeyAct.selectMention selectedSuggestion])
      | none => (true, [KeyAct.preventDefault])
  else if key = "Escape" then
    (true,
      if isSlashCommandActive then
        [KeyAct.preventDefault, KeyAct.closeDropdown DropdownKind.slash]
      else [KeyAct.preventDefault, KeyAct.closeDropdown DropdownKind.mention])
  else (false, [])

/-- The input-surface state the keyboard actions act on. -/
structure ChatUiState where
  text : String
  slash : DropdownState SlashCommand
  mention : DropdownState NoteMetadata
  hintText : Option String
  commandText : String
deriving DecidableEq, Repr

/-- Interpretation of one action on the UI state.  The text rewriting
of a selection is the external suggestion engine, passed in as
`selSlash`/`selMention`, and the navigation policy as `nav` (spec: the
policy is delegated to the engine).  The hint bookkeeping on a slash
selection mirrors `handleSelectSlashCommand` (lines 409-439).
Modelled from the spec: the hooks `useSlashCommands`/`useMentions` are
not part of the included source; per the spec, applying a suggestion
and calling `close()` both close the owning dropdown. -/
def applyKeyAct (selSlash : String → SlashCommand → String)
    (selMention : String → NoteMetadata → String)
    (nav : NavDir → Nat → Nat) (st : ChatUiState) : KeyAct → ChatUiState
  | KeyAct.preventDefault => st
  | KeyAct.navigate DropdownKind.slash dir =>
    { st with slash :=
        { st.slash with selectedIndex := nav dir st.slash.selectedIndex } }
  | KeyAct.navigate DropdownKind.mention dir =>
    { st with mention :=
        { st.mention with selectedIndex := nav dir st.mention.selectedIndex } }
  | KeyAct.selectSlash c =>
    match c.hint with
    | some h =>
      { st with
        text := selSlash st.text c,
        slash := { st.slash with isOpen := false },
        hintText := some h,
        commandText := "/" ++ c.name ++ " " }
    | none =>
      { st with
        text := selSlash st.text c,
        slash := { st.slash with isOpen := false },
        hintText := none,
        commandText := "" }
  | KeyAct.selectMention m =>
    { st with
      text := selMention st.text m,
      mention := { st.mention with isOpen := false } }
  | KeyAct.closeDropdown DropdownKind.slash =>
    { st with slash := { st.slash with isOpen := false } }
  | KeyAct.closeDropdown DropdownKind.mention =>
    { st with mention := { st.mention with isOpen := false } }

/-- Interpretation of an action list, in order. -/
def applyKeyActs (selSlash : String → SlashCommand → String)
    (selMention : String → NoteMetadata → String)
    (nav : NavDir → Nat → Nat) (st : ChatUiState)
    (acts : List KeyAct) : ChatUiState :=
  acts.foldl (applyKeyAct selSlash selMention nav) st

/-- C6: with a dropdown active, Enter or Tab applies the currently
highlighted suggestion of the active dropdown and closes it; Enter is
ignored (falls back to default handling) during IME composition while
Tab still applies; Escape closes exactly the active dropdown and
leaves the input text (and the rest of the state) unmodified. -/
theorem c6_dropdown_keyboard_contract
    (selSlash : String → SlashCommand → String)
    (selMention : String → NoteMetadata → String)
    (nav : NavDir → Nat → Nat) (st : ChatUiState) (comp : Bool) :
    ((st.slash.isOpen = true ∨ st.mention.isOpen = true) →
      handleDropdownKeyPress st.slash st.mention "Enter" true = (false, [])) ∧
    (st.slash.isOpen = true →
      (∀ c, st.slash.suggestions.get? st.slash.selectedIndex = some c →
        ∀ key, (key = "Tab" ∨ (key = "Enter" ∧ comp = false)) →
          handleDropdownKeyPress st.slash st.mention key comp =
            (true, [KeyAct.preventDefault, KeyAct.selectSlash c]) ∧
          (applyKeyActs selSlash selMention nav st
              [KeyAct.preventDefault, KeyAct.selectSlash c]).text =
            selSlash st.text c ∧
          (applyKeyActs selSlash selMention nav st
              [KeyAct.preventDefault,
                KeyAct.selectSlash c]).slash.isOpen = false) ∧
      handleDropdownKeyPress st.slash st.mention "Escape" comp =
        (true,
          [KeyAct.preventDefault, KeyAct.closeDropdown DropdownKind.slash]) ∧
      applyKeyActs selSlash selMention nav st
          [KeyAct.preventDefault, KeyAct.closeDropdown DropdownKind.slash] =
        { st with slash := { st.slash with isOpen := false } }) ∧
    (st.slash.isOpen = false → st.mention.isOpen = true →
      (∀ m, st.mention.suggestions.get? st.mention.selectedIndex = some m →
        ∀ key, (key = "Tab" ∨ (key = "Enter" ∧ comp = false)) →
          handleDropdownKeyPress st.slash st.mention key comp =
            (true, [KeyAct.preventDefault, KeyAct.selectMention m]) ∧
          (applyKeyActs selSlash selMention nav st
              [KeyAct.preventDefault, KeyAct.selectMention m]).text =
            selMention st.text m ∧
          (applyKeyActs selSlash selMention nav st
              [KeyAct.preventDefault,
                KeyAct.selectMention m]).mention.isOpen = false) ∧
      handleDropdownKeyPress st.slash st.mention "Escape" comp =
        (true,
          [KeyAct.preventDefault, KeyAct.closeDropdown DropdownKind.mention]) ∧
      applyKeyActs selSlash selMention nav st
          [KeyAct.preventDefault, KeyAct.closeDropdown DropdownKind.mention] =
        { st with mention := { st.mention with isOpen := false } }) := by
  refine ⟨?_, ?_, ?_⟩
  · rintro (hs | hm)
    · simp [handleDropdownKeyPress, hs]
    · simp [handleDropdownKeyPress, hm]
  · intro hs
    refine ⟨?_, ?_, ?_⟩
    · intro c hc key hkey
      rw [List.get?_eq_getElem?] at hc
      have hpress : handleDropdownKeyPress st.slash st.mention key comp =
          (true, [KeyAct.preventDefault, KeyAct.selectSlash c]) := by
        rcases hkey with hk | ⟨hk, hcomp⟩ <;> subst hk <;>
          simp [handleDropdownKeyPress, hs, hc, *]
      refine ⟨hpress, ?_, ?_⟩ <;>
        cases hh : c.hint <;>
          simp [applyKeyActs, applyKeyAct, hh]
    · simp [handleDropdownKeyPress, hs]
    · simp [applyKeyActs, applyKeyAct]
  · intro hs hm
    refine ⟨?_, ?_, ?_⟩
    · intro m hmention key hkey
      rw [List.get?_eq_getElem?] at hmention
      have hpress : handleDropdownKeyPress st.slash st.mention key comp =
          (true, [KeyAct.preventDefault, KeyAct.selectMention m]) := by
        rcases hkey with hk | ⟨hk, hcomp⟩ <;> subst hk <;>
          simp [handleDropdownKeyPress, hs, hm, hmention, *]
      exact ⟨hpress, by simp [applyKeyActs, applyKeyAct],
        by simp [applyKeyActs, applyKeyAct]⟩
    · simp [handleDropdownKeyPress, hs, hm]
    · simp [applyKeyActs, applyKeyAct]

/-- Concrete UI state used by the dropdown witnesses: slash dropdown
open on one command, mention dropdown closed. -/
def chatSt0 : ChatUiState :=
  ⟨"/he", ⟨true, [⟨"help", none⟩], 0⟩, ⟨false, [], 0⟩, none, ""⟩

/-- Witness for C6 at a concrete input. -/
theorem c6_dropdown_keyboard_contract_witness :
    handleDropdownKeyPress chatSt0.slash chatSt0.mention "Escape" false =
      (true,
        [KeyAct.preventDefault, KeyAct.closeDropdown DropdownKind.slash]) :=
  (((c6_dropdown_keyboard_contract (fun t _ => t) (fun t _ => t)
      (fun _ i => i) chatSt0 false).2.1) rfl).2.1

/-- Modelled from the spec: the open flags of the two suggestion
dropdowns after the hooks react to a text change.  The hooks
`useMentions` and `useSlashCommands` are not part of the included
source; the spec states that at most one dropdown is open at a time,
the slash-command dropdown taking priority when both triggers could
apply.  `slashTrigger` and `mentionTrigger` abstract the trigger
detection the hooks perform on the new text and cursor. -/
def updateDropdownsOpen (slashTrigger mentionTrigger : Bool) : Bool × Bool :=
  (slashTrigger, mentionTrigger && !slashTrigger)

/-- C9: at most one suggestion dropdown is open at a time (first
conjunct, over the spec-modelled hook update), and when both dropdowns
are flagged open the slash-command dropdown takes navigation priority
over the mention dropdown for every keyboard action of
`handleDropdownKeyPress`. -/
theorem c9_single_dropdown_slash_priority
    (slashTrigger mentionTrigger : Bool)
    (slash : DropdownState SlashCommand)
    (mention : DropdownState NoteMetadata) (comp : Bool) :
    ¬((updateDropdownsOpen slashTrigger mentionTrigger).1 = true ∧
      (updateDropdownsOpen slashTrigger mentionTrigger).2 = true) ∧
    (slash.isOpen = true → mention.isOpen = true →
      handleDropdownKeyPress slash mention "ArrowDown" comp =
        (true,
          [KeyAct.preventDefault,
            KeyAct.navigate DropdownKind.slash NavDir.down]) ∧
      handleDropdownKeyPress slash mention "ArrowUp" comp =
        (true,
          [KeyAct.preventDefault,
            KeyAct.navigate DropdownKind.slash NavDir.up]) ∧
      (∀ c, slash.suggestions.get? slash.selectedIndex = some c →
        handleDropdownKeyPress slash mention "Tab" comp =
          (true, [KeyAct.preventDefault, KeyAct.selectSlash c])) ∧
      handleDropdownKeyPress slash mention "Escape" comp =
        (true,
          [KeyAct.preventDefault,
            KeyAct.closeDropdown DropdownKind.slash])) := by
  constructor
  · cases slashTrigger <;> cases mentionTrigger <;>
      simp [updateDropdownsOpen]
  · intro hs hm
    refine ⟨?_, ?_, ?_, ?_⟩
    · simp [handleDropdownKeyPress, hs]
    · simp [handleDropdownKeyPress, hs]
    · intro c hc
      rw [List.get?_eq_getElem?] at hc
      simp [handleDropdownKeyPress, hs, hc]
    · simp [handleDropdownKeyPress, hs]

/-- Witness for C9 at a concrete input. -/
theorem c9_single_dropdown_slash_priority_witness :
    handleDropdownKeyPress
        (⟨true, [⟨"help", none⟩], 0⟩ : DropdownState SlashCommand)
        (⟨true, [⟨"note"⟩], 0⟩ : DropdownState NoteMetadata) "ArrowDown"
        false =
      (true,
        [KeyAct.preventDefault,
          KeyAct.navigate DropdownKind.slash NavDir.down]) :=
  ((c9_single_dropdown_slash_priority true true
      ⟨true, [⟨"help", none⟩], 0⟩ ⟨true, [⟨"note"⟩], 0⟩ false).2 rfl rfl).1

/-! ## Floating-instance display labels (FloatingButton.tsx lines
78-100 and the identical copy in src/unnamed/part_000 lines 1149-1172,
claim C7) -/

/-- One entry of the list built from the registry:
`{ viewId: v.viewId, label: v.getDisplayName() }`. -/
structure ViewEntry where
  viewId : String
  label : String
deriving DecidableEq, Repr

/-- Number of entries carrying label `l` (the value of `countMap`). -/
def occCount (l : String) (es : List ViewEntry) : Nat :=
  (es.filter (fun e => e.label == l)).length

/-- Loop of `instanceLabels`: `count` is lookup in the precomputed
`countMap`, `m` models `indexMap` as an association list with the most
recent binding first. -/
def instanceLabelsGo (count : String → Nat) :
    List ViewEntry → List (String × Nat) → List ViewEntry
  | [], _ => []
  | e :: rest, m =>
    if count e.label > 1 then
      ViewEntry.mk e.viewId
          (if ((m.lookup e.label).getD 0) + 1 = 1 then e.label
            else e.label ++ " " ++ toString (((m.lookup e.label).getD 0) + 1)) ::
        instanceLabelsGo count rest
          ((e.label, ((m.lookup e.label).getD 0) + 1) :: m)
    else e :: instanceLabelsGo count rest m

/-- `instanceLabels`: disambiguate duplicate display names with a
numeric suffix in first-seen order. -/
def instanceLabels (entries : List ViewEntry) : List ViewEntry :=
  instanceLabelsGo (fun l => occCount l entries) entries []

/-- The labelling described by the spec sentence, stated directly:
names occurring once are unchanged; for a duplicated name, the k-th
occurrence (counted over the prefix up to that position) is labelled
with suffix k, except the first which stays unsuffixed. -/
def specLabels (entries : List ViewEntry) : List ViewEntry :=
  entries.enum.map (fun p =>
    if occCount p.2.label entries > 1 then
      ViewEntry.mk p.2.viewId
        (if occCount p.2.label (entries.take (p.1 + 1)) = 1 then p.2.label
          else p.2.label ++ " " ++
            toString (occCount p.2.label (entries.take (p.1 + 1))))
    else p.2)

lemma occCount_append (l : String) (xs ys : List ViewEntry) :
    occCount l (xs ++ ys) = occCount l xs + occCount l ys := by
  simp [occCount, List.filter_append]

lemma occCount_singleton_self (e : ViewEntry) :
    occCount e.label [e] = 1 := by
  simp [occCount]

lemma occCount_singleton_ne {l : String} {e : ViewEntry}
    (h : l ≠ e.label) : occCount l [e] = 0 := by
  have hb : (e.label == l) = false := beq_eq_false_iff_ne.mpr (Ne.symm h)
  simp [occCount, List.filter, hb]

lemma occCount_nil (l : String) : occCount l ([] : List ViewEntry) = 0 := rfl

lemma occCount_cons_split (l : String) (e : ViewEntry) (es : List ViewEntry) :
    occCount l (e :: es) = occCount l [e] + occCount l es := by
  simpa using occCount_append l [e] es

lemma instanceLabelsGo_get? (count : String → Nat) :
    ∀ (rest : List ViewEntry) (m : List (String × Nat))
      (pre : List ViewEntry),
      (∀ l, count l > 1 → ((m.lookup l).getD 0) = occCount l pre) →
      ∀ i, (instanceLabelsGo count rest m).get? i =
        (rest.get? i).map (fun e =>
          if count e.label > 1 then
            ViewEntry.mk e.viewId
              (if occCount e.label pre +
                  occCount e.label (rest.take (i + 1)) = 1 then e.label
                else e.label ++ " " ++
                  toString (occCount e.label pre +
                    occCount e.label (rest.take (i + 1))))
          else e) := by
  intro rest
  induction rest with
  | nil => intro m pre hm i; simp [instanceLabelsGo]
  | cons e rest ih =>
    intro m pre hm i
    by_cases hdup : count e.label > 1
    · cases i with
      | zero =>
        simp only [instanceLabelsGo, if_pos hdup, List.get?, Option.map]
        rw [hm e.label hdup]
        have htake : (e :: rest).take (0 + 1) = [e] := rfl
        rw [htake, occCount_singleton_self]
      | succ j =>
        have hinv : ∀ l, count l > 1 →
            ((((e.label, ((m.lookup e.label).getD 0) + 1) :: m).lookup l).getD 0)
              = occCount l (pre ++ [e]) := by
          intro l hl
          by_cases hle : l = e.label
          · subst hle
            simp only [List.lookup, beq_self_eq_true, Option.getD_some]
            rw [occCount_append, occCount_singleton_self, hm e.label hl]
          · simp only [List.lookup, beq_eq_false_iff_ne.mpr hle]
            rw [occCount_append, occCount_singleton_ne hle]
            simpa using hm l hl
        have hrec := ih ((e.label, ((m.lookup e.label).getD 0) + 1) :: m)
          (pre ++ [e]) hinv j
        simp only [instanceLabelsGo, if_pos hdup, List.get?]
        rw [hrec]
        cases hre : rest.get? j with
        | none => rfl
        | some e2 =>
          simp only [Option.map]
          have htake : (e :: rest).take (j + 1 + 1) =
              e :: rest.take (j + 1) := rfl
          rw [htake, occCount_cons_split e2.label e (rest.take (j + 1)),
            occCount_append e2.label pre [e], Nat.add_assoc]
    · cases i with
      | zero =>
        simp only [instanceLabelsGo, if_neg hdup, List.get?, Option.map]
      | succ j =>
        have hinv : ∀ l, count l > 1 →
            ((m.lookup l).getD 0) = occCount l (pre ++ [e]) := by
          intro l hl
          have hle : l ≠ e.label := by
            intro hcon
            rw [hcon] at hl
            exact hdup hl
          rw [occCount_append, occCount_singleton_ne hle]
          simpa using hm l hl
        have hrec := ih m (pre ++ [e]) hinv j
        simp only [instanceLabelsGo, if_neg hdup, List.get?]
        rw [hrec]
        cases hre : rest.get? j with
        | none => rfl
        | some e2 =>
          simp only [Option.map]
          have htake : (e :: rest).take (j + 1 + 1) =
              e :: rest.take (j + 1) := rfl
          rw [htake, occCount_cons_split e2.label e (rest.take (j + 1)),
            occCount_append e2.label pre [e], Nat.add_assoc]

/-- C7: `instanceLabels` computes exactly the spec labelling — first
occurrence of a duplicated name unsuffixed, later occurrences suffixed
with their first-seen rank, unique names unchanged — and on the
concrete instances named Chat, Chat, Research it yields Chat, Chat 2,
Research. -/
theorem c7_instance_label_disambiguation (entries : List ViewEntry) :
    instanceLabels entries = specLabels entries ∧
    instanceLabels
        [ViewEntry.mk "a" "Chat", ViewEntry.mk "b" "Chat",
          ViewEntry.mk "c" "Research"] =
      [ViewEntry.mk "a" "Chat", ViewEntry.mk "b" "Chat 2",
        ViewEntry.mk "c" "Research"] := by
  constructor
  · apply List.ext
    intro i
    have hinv : ∀ l, (fun l => occCount l entries) l > 1 →
        ((([] : List (String × Nat)).lookup l).getD 0) =
          occCount l ([] : List ViewEntry) := by
      intro l hl; rfl
    have hmain := instanceLabelsGo_get? (fun l => occCount l entries)
      entries [] [] hinv i
    rw [instanceLabels, hmain, specLabels, List.get?_map, List.get?_enum]
    cases he : entries.get? i with
    | none => rfl
    | some e =>
      simp only [Option.map, occCount_nil, Nat.zero_add]
  · decide

/-! ## parseChatFontSize (src/unnamed/part_002, claim C10) -/

/-- Model of a JavaScript number: an exact rational for the finite
values plus the non-finite values.  `parseChatFontSize` only compares,
rounds and clamps, so exact rationals are a faithful carrier; NaN
arising from failed string parsing is represented by `nan`. -/
inductive JsNumber where
  | finite (q : ℚ)
  | nan
  | posInf
  | negInf
deriving DecidableEq

/-- Model of an arbitrary JavaScript value (`unknown`) passed to
`parseChatFontSize`: null, undefined, a number, a string, or any value
of another type (boolean, object, ...), which the code treats
uniformly. -/
inductive JsValue where
  | nullv
  | undef
  | num (n : JsNumber)
  | str (s : String)
  | other
deriving DecidableEq

/-- `Number.isFinite`. -/
def JsNumber.isFinite : JsNumber → Bool
  | JsNumber.finite _ => true
  | _ => false

/-- `Math.round` on a finite value: nearest integer, ties toward
positive infinity. -/
def mathRound (q : ℚ) : Int := ⌊q + 1 / 2⌋

/-- Test of the regex `/^-?\d+$/` (an optionally minus-signed non-empty
run of ASCII decimal digits) on the character list. -/
def isSignedDigitString (s : String) : Bool :=
  match s.data with
  | [] => false
  | '-' :: rest => !rest.isEmpty && rest.all Char.isDigit
  | l => l.all Char.isDigit

/-- Value of a run of decimal digits. -/
def digitsVal (l : List Char) : Nat :=
  l.foldl (fun acc c => acc * 10 + (c.toNat - '0'.toNat)) 0

/-- `Number.parseInt(s, 10)` on a string already validated against
`/^-?\d+$/`, modelled exactly (the float approximation JavaScript
applies to very long digit runs never changes the clamped result). -/
def parseIntDec (s : String) : Int :=
  match s.data with
  | '-' :: rest => -(digitsVal rest : Int)
  | l => (digitsVal l : Int)

def CHAT_FONT_SIZE_MIN : Int := 10

def CHAT_FONT_SIZE_MAX : Int := 24

/-- `parseChatFontSize` (src/unnamed/part_002 lines 4-36): null for
null/undefined; numbers pass through, strings are trimmed and must
match `/^-?\d+$/` (empty after trim is rejected first), every other
type yields NaN; non-finite results give null, finite ones are rounded
and clamped into `[CHAT_FONT_SIZE_MIN, CHAT_FONT_SIZE_MAX]`. -/
def parseChatFontSize (value : JsValue) : Option Int :=
  match value with
  | JsValue.nullv => none
  | JsValue.undef => none
  | _ =>
    let numericValue : JsNumber :=
      match value with
      | JsValue.num n => n
      | JsValue.str s =>
        if (jsTrim s).length = 0 then JsNumber.nan
        else if !isSignedDigitString (jsTrim s) then JsNumber.nan
        else JsNumber.finite ((parseIntDec (jsTrim s) : Int) : ℚ)
      | _ => JsNumber.nan
    match numericValue with
    | JsNumber.finite q =>
      some (min CHAT_FONT_SIZE_MAX (max CHAT_FONT_SIZE_MIN (mathRound q)))
    | _ => none

/-- The behaviour the claim describes, stated directly from its words:
null exactly for null/undefined, values that are neither number nor
string, non-finite numbers, and strings whose trimmed form is not an
optionally minus-signed digit run; otherwise the numeric value rounded
to the nearest integer and clamped into [10, 24]. -/
def parseChatFontSizeClaim (value : JsValue) : Option Int :=
  match value with
  | JsValue.num (JsNumber.finite q) =>
    some (min 24 (max 10 (mathRound q)))
  | JsValue.str s =>
    if isSignedDigitString (jsTrim s) then
      some (min 24 (max 10 (mathRound ((parseIntDec (jsTrim s) : Int) : ℚ))))
    else none
  | _ => none

lemma clampFont_bounds (r : Int) :
    10 ≤ min CHAT_FONT_SIZE_MAX (max CHAT_FONT_SIZE_MIN r) ∧
      min CHAT_FONT_SIZE_MAX (max CHAT_FONT_SIZE_MIN r) ≤ 24 := by
  constructor
  · apply le_min
    · norm_num [CHAT_FONT_SIZE_MAX]
    · calc (10 : Int) ≤ CHAT_FONT_SIZE_MIN := by norm_num [CHAT_FONT_SIZE_MIN]
        _ ≤ max CHAT_FONT_SIZE_MIN r := le_max_left _ _
  · calc min CHAT_FONT_SIZE_MAX (max CHAT_FONT_SIZE_MIN r)
        ≤ CHAT_FONT_SIZE_MAX := min_le_left _ _
    _ ≤ 24 := by norm_num [CHAT_FONT_SIZE_MAX]

lemma isSignedDigitString_of_empty {s : String} (h : s.length = 0) :
    isSignedDigitString s = false := by
  have hdata : s.data = [] := by
    cases s with
    | mk l =>
      cases l with
      | nil => rfl
      | cons c cs => simp [String.length] at h
  simp [isSignedDigitString, hdata]

/-- C10: `parseChatFontSize` agrees with the claimed characterisation
on every input, and every non-null result lies in
[CHAT_FONT_SIZE_MIN, CHAT_FONT_SIZE_MAX] = [10, 24]. -/
theorem c10_parse_chat_font_size (value : JsValue) :
    parseChatFontSize value = parseChatFontSizeClaim value ∧
    (∀ n, parseChatFontSize value = some n →
      CHAT_FONT_SIZE_MIN ≤ n ∧ n ≤ CHAT_FONT_SIZE_MAX ∧
        10 ≤ n ∧ n ≤ 24) := by
  have heq : parseChatFontSize value = parseChatFontSizeClaim value := by
    cases value with
    | nullv => rfl
    | undef => rfl
    | other => rfl
    | num n => cases n <;> rfl
    | str s =>
      by_cases hl : (jsTrim s).length = 0
      · have hre := isSignedDigitString_of_empty hl
        simp [parseChatFontSize, parseChatFontSizeClaim, hl, hre,
          CHAT_FONT_SIZE_MIN, CHAT_FONT_SIZE_MAX]
      · by_cases hre : isSignedDigitString (jsTrim s) = true
        · simp [parseChatFontSize, parseChatFontSizeClaim, hl, hre,
            CHAT_FONT_SIZE_MIN, CHAT_FONT_SIZE_MAX]
        · have hre2 : isSignedDigitString (jsTrim s) = false :=
            Bool.eq_false_iff.mpr hre
          simp [parseChatFontSize, parseChatFontSizeClaim, hl, hre2]
  refine ⟨heq, ?_⟩
  intro n hn
  rw [heq] at hn
  have hform : ∃ r : Int,
      n = min CHAT_FONT_SIZE_MAX (max CHAT_FONT_SIZE_MIN r) := by
    cases value with
    | nullv => simp [parseChatFontSizeClaim] at hn
    | undef => simp [parseChatFontSizeClaim] at hn
    | other => simp [parseChatFontSizeClaim] at hn
    | num m =>
      cases m with
      | finite q =>
        refine ⟨mathRound q, ?_⟩
        simp [parseChatFontSizeClaim, CHAT_FONT_SIZE_MIN,
          CHAT_FONT_SIZE_MAX] at hn ⊢
        omega
      | nan => simp [parseChatFontSizeClaim] at hn
      | posInf => simp [parseChatFontSizeClaim] at hn
      | negInf => simp [parseChatFontSizeClaim] at hn
    | str s =>
      by_cases hre : isSignedDigitString (jsTrim s) = true
      · refine ⟨mathRound ((parseIntDec (jsTrim s) : Int) : ℚ), ?_⟩
        simp [parseChatFontSizeClaim, hre, CHAT_FONT_SIZE_MIN,
          CHAT_FONT_SIZE_MAX] at hn ⊢
        omega
      · have hre2 : isSignedDigitString (jsTrim s) = false :=
          Bool.eq_false_iff.mpr hre
        simp [parseChatFontSizeClaim, hre2] at hn
  obtain ⟨r, rfl⟩ := hform
  have hb := clampFont_bounds r
  refine ⟨?_, ?_, hb.1, hb.2⟩
  · calc CHAT_FONT_SIZE_MIN = (10 : Int) := by norm_num [CHAT_FONT_SIZE_MIN]
      _ ≤ _ := hb.1
  · calc min CHAT_FONT_SIZE_MAX (max CHAT_FONT_SIZE_MIN r) ≤ 24 := hb.2
      _ = CHAT_FONT_SIZE_MAX := by norm_num [CHAT_FONT_SIZE_MAX]

/-- Witness for C10 at a concrete input. -/
theorem c10_parse_chat_font_size_witness :
    CHAT_FONT_SIZE_MIN ≤ 24 ∧ 24 ≤ CHAT_FONT_SIZE_MAX ∧
      (10 : Int) ≤ 24 ∧ (24 : Int) ≤ 24 :=
  (c10_parse_chat_font_size (JsValue.num (JsNumber.finite 37))).2 24
    (by
      show some (min CHAT_FONT_SIZE_MAX
        (max CHAT_FONT_SIZE_MIN (mathRound 37))) = some 24
      have h1 : mathRound (37 : ℚ) = 37 := by
        unfold mathRound
        norm_num
      rw [h1]
      have h2 : min CHAT_FONT_SIZE_MAX (max CHAT_FONT_SIZE_MIN (37 : Int)) =
          24 := by
        simp only [CHAT_FONT_SIZE_MIN, CHAT_FONT_SIZE_MAX]
        omega
      rw [h2])

end AgentClient